import Mathlib

set_option maxRecDepth 100000

/-!
Verification development for the `polyte` CLOB client (Rust crates under
`polyte-clob`).  Rust source functions are shallowly embedded as executable
Lean definitions:

* `f64` values are modelled by the type `F`: an exact rational together with
  the IEEE special values `nan`, `inf` and `neginf`.  Comparisons follow IEEE
  semantics (`nan` compares false to everything).  Arithmetic on finite values
  is exact rational arithmetic; for every concrete input appearing in a
  theorem below the corresponding `f64` operations in the source are exact as
  well (the values involved are representable and the operations incur no
  rounding), so the model agrees with the code there.  Float literals from the
  source (`0.1`, `0.01`, `0.001`, `0.0001`, `1e-10`) are embedded as the exact
  rational values of the corresponding IEEE-754 doubles.
* Rust `String`s are Lean `String`s; byte strings are `List Nat` with each
  entry `< 256`.  `str.as_bytes()` is modelled by the code-point list, which
  coincides with UTF-8 for the ASCII data handled here.
* Fallible Rust functions returning `Result` are embedded as `Except`.
* `serde_json` values are modelled by the inductive `Json`; the derived
  deserializers of the message structs are translated field by field.
-/

namespace Polyte

/-! Kernel-computable rational arithmetic.  Mathlib's `Rat.add`, `Rat.mul`,
`Rat.sub` and `Rat.inv` do not reduce inside `decide`, so the embedding
uses the following `Rat.divInt`-based helpers; each is proved equal to the
corresponding field operation on `ℚ` just below. -/

/-- Rational addition via `Rat.divInt`. -/
def qAdd (a b : ℚ) : ℚ := Rat.divInt (a.num * b.den + b.num * a.den) (a.den * b.den)

/-- Rational subtraction via `Rat.divInt`. -/
def qSub (a b : ℚ) : ℚ := Rat.divInt (a.num * b.den - b.num * a.den) (a.den * b.den)

/-- Rational multiplication via `Rat.divInt`. -/
def qMul (a b : ℚ) : ℚ := Rat.divInt (a.num * b.num) (a.den * b.den)

/-- Rational division via `Rat.divInt`. -/
def qDiv (a b : ℚ) : ℚ := Rat.divInt (a.num * b.den) (a.den * b.num)

/-- Rational negation via `Rat.divInt`. -/
def qNeg (a : ℚ) : ℚ := Rat.divInt (-a.num) a.den

/-- Rational absolute value via `Rat.divInt`. -/
def qAbs (a : ℚ) : ℚ := Rat.divInt (Int.ofNat a.num.natAbs) a.den

/-- Embed an integer as a rational. -/
def qOfInt (z : ℤ) : ℚ := Rat.divInt z 1

theorem qAdd_eq (a b : ℚ) : qAdd a b = a + b := by
  have ha : ((a.den : ℚ)) ≠ 0 := by positivity
  have hb : ((b.den : ℚ)) ≠ 0 := by positivity
  conv_rhs => rw [← Rat.num_div_den a, ← Rat.num_div_den b]
  rw [qAdd, Rat.divInt_eq_div, div_add_div _ _ ha hb]
  push_cast
  ring_nf

theorem qSub_eq (a b : ℚ) : qSub a b = a - b := by
  have ha : ((a.den : ℚ)) ≠ 0 := by positivity
  have hb : ((b.den : ℚ)) ≠ 0 := by positivity
  conv_rhs => rw [← Rat.num_div_den a, ← Rat.num_div_den b]
  rw [qSub, Rat.divInt_eq_div, div_sub_div _ _ ha hb]
  push_cast
  ring_nf

theorem qMul_eq (a b : ℚ) : qMul a b = a * b := by
  conv_rhs => rw [← Rat.num_div_den a, ← Rat.num_div_den b]
  rw [qMul, Rat.divInt_eq_div, div_mul_div_comm]
  push_cast
  ring_nf

theorem qDiv_eq (a b : ℚ) : qDiv a b = a / b := by
  rcases eq_or_ne b 0 with hb | hb
  · subst hb
    simp [qDiv, Rat.divInt_eq_div]
  · have ha : ((a.den : ℚ)) ≠ 0 := by positivity
    have hd : ((b.den : ℚ)) ≠ 0 := by positivity
    have hbn : ((b.num : ℚ)) ≠ 0 := by
      exact_mod_cast Rat.num_ne_zero.mpr hb
    conv_rhs => rw [← Rat.num_div_den a, ← Rat.num_div_den b]
    rw [qDiv, Rat.divInt_eq_div]
    push_cast
    field_simp

theorem qNeg_eq (a : ℚ) : qNeg a = -a := by
  conv_rhs => rw [← Rat.num_div_den a]
  rw [qNeg, Rat.divInt_eq_div, ← neg_div]
  push_cast
  ring_nf

theorem qAbs_eq (a : ℚ) : qAbs a = |a| := by
  rw [qAbs, Rat.divInt_eq_div]
  have h : |a| = |(a.num : ℚ)| / |(a.den : ℚ)| := by rw [← abs_div, Rat.num_div_den]
  rw [h, abs_of_pos (show (0:ℚ) < (a.den : ℚ) by positivity)]
  congr 1
  rw [show (Int.ofNat a.num.natAbs) = ((a.num.natAbs : ℕ) : ℤ) from rfl]
  push_cast [Int.cast_natAbs]
  rfl

instance {ε α : Type} [DecidableEq ε] [DecidableEq α] : DecidableEq (Except ε α) :=
  fun x y =>
    match x, y with
    | .ok a, .ok b =>
      if h : a = b then .isTrue (by rw [h]) else .isFalse (by simp [h])
    | .error a, .error b =>
      if h : a = b then .isTrue (by rw [h]) else .isFalse (by simp [h])
    | .ok _, .error _ => .isFalse (fun h => Except.noConfusion h)
    | .error _, .ok _ => .isFalse (fun h => Except.noConfusion h)

/-- Model of an `f64`: exact rational or an IEEE special value. -/
inductive F where
  | finite (q : ℚ)
  | nan
  | inf
  | neginf
deriving DecidableEq, Repr

namespace F

/-- IEEE `is_nan`. -/
def isNan : F → Bool
  | .nan => true
  | _ => false

/-- IEEE `<=` (any comparison with NaN is false). -/
def le : F → F → Bool
  | .nan, _ => false
  | _, .nan => false
  | .finite a, .finite b => decide (a ≤ b)
  | .finite _, .inf => true
  | .finite _, .neginf => false
  | .inf, .inf => true
  | .inf, .finite _ => false
  | .inf, .neginf => false
  | .neginf, _ => true

/-- IEEE `<` (any comparison with NaN is false). -/
def lt : F → F → Bool
  | .nan, _ => false
  | _, .nan => false
  | .finite a, .finite b => decide (a < b)
  | .finite _, .inf => true
  | .finite _, .neginf => false
  | .inf, _ => false
  | .neginf, .neginf => false
  | .neginf, _ => true

/-- IEEE subtraction (exact on finite values; see module comment). -/
def sub : F → F → F
  | .nan, _ => .nan
  | _, .nan => .nan
  | .finite a, .finite b => .finite (qSub a b)
  | .finite _, .inf => .neginf
  | .finite _, .neginf => .inf
  | .inf, .finite _ => .inf
  | .inf, .inf => .nan
  | .inf, .neginf => .inf
  | .neginf, .finite _ => .neginf
  | .neginf, .inf => .neginf
  | .neginf, .neginf => .nan

/-- IEEE multiplication (exact on finite values; see module comment). -/
def mul : F → F → F
  | .nan, _ => .nan
  | _, .nan => .nan
  | .finite a, .finite b => .finite (qMul a b)
  | .finite a, .inf => if a > 0 then .inf else if a < 0 then .neginf else .nan
  | .inf, .finite a => if a > 0 then .inf else if a < 0 then .neginf else .nan
  | .finite a, .neginf => if a > 0 then .neginf else if a < 0 then .inf else .nan
  | .neginf, .finite a => if a > 0 then .neginf else if a < 0 then .inf else .nan
  | .inf, .inf => .inf
  | .inf, .neginf => .neginf
  | .neginf, .inf => .neginf
  | .neginf, .neginf => .inf

/-- IEEE `abs`. -/
def fabs : F → F
  | .finite a => .finite (qAbs a)
  | .nan => .nan
  | .inf => .inf
  | .neginf => .inf

/-- Division by a (nonzero) finite rational, as used for the constant
`10^d` multipliers in `round_to_decimals`. -/
def divQ : F → ℚ → F
  | .finite a, m => .finite (qDiv a m)
  | .nan, _ => .nan
  | .inf, _ => .inf
  | .neginf, _ => .neginf

/-- Rust `f64::round`: nearest integer, half-way cases away from zero. -/
def roundRust : F → F
  | .finite q =>
    .finite (if 0 ≤ q then qOfInt (Rat.floor (qAdd q (Rat.divInt 1 2)))
             else qOfInt (-(Rat.floor (qAdd (qNeg q) (Rat.divInt 1 2)))))
  | .nan => .nan
  | .inf => .inf
  | .neginf => .neginf

/-- Rust `as u128` saturating cast applied after `f64::floor`
(`NaN ↦ 0`, negative values clamp to `0`, `+∞` and too-large values clamp
to `2^128 - 1`). -/
def floorCastU128 : F → ℕ
  | .finite q => min (2 ^ 128 - 1) (Rat.floor q).toNat
  | .nan => 0
  | .inf => 2 ^ 128 - 1
  | .neginf => 0

end F

/-- `OrderSide` from `types.rs`. -/
inductive OrderSide where
  | buy
  | sell
deriving DecidableEq, Repr

/-- `SignatureType` from `types.rs` (default is `Eoa`). -/
inductive SignatureType where
  | eoa
  | polyProxy
  | polyGnosisSafe
deriving DecidableEq, Repr

/-- `TickSize` from `types.rs`. -/
inductive TickSize where
  | tenth
  | hundredth
  | thousandth
  | tenThousandth
deriving DecidableEq, Repr

/-- `TickSize::decimals`. -/
def TickSize.decimals : TickSize → ℕ
  | .tenth => 1
  | .hundredth => 2
  | .thousandth => 3
  | .tenThousandth => 4

/-- `impl From<&str> for TickSize` (the Rust `match` on `&str` is an
equality chain). -/
def tickSizeFromStr (s : String) : TickSize :=
  if s = "0.1" then .tenth
  else if s = "0.01" then .hundredth
  else if s = "0.001" then .thousandth
  else if s = "0.0001" then .tenThousandth
  else .hundredth

/-- Exact value of the IEEE-754 double written `0.1`
(`3602879701896397 / 2^55`). -/
def f64Tenth : ℚ := Rat.divInt 3602879701896397 36028797018963968

/-- Exact value of the IEEE-754 double written `0.01`
(`5764607523034235 / 2^59`). -/
def f64Hundredth : ℚ := Rat.divInt 5764607523034235 576460752303423488

/-- Exact value of the IEEE-754 double written `0.001`
(`1152921504606847 / 2^60`). -/
def f64Thousandth : ℚ := Rat.divInt 1152921504606847 1152921504606846976

/-- Exact value of the IEEE-754 double written `0.0001`
(`7378697629483821 / 2^66`). -/
def f64TenThousandth : ℚ := Rat.divInt 7378697629483821 73786976294838206464

/-- Exact value of the IEEE-754 double written `1e-10` (the `EPSILON`
constant of `impl From<f64> for TickSize`; `7737125245533627 / 2^86`). -/
def f64Epsilon : ℚ := Rat.divInt 7737125245533627 77371252455336267181195264

/-- `impl From<f64> for TickSize`: compare against each recognized size
within `EPSILON = 1e-10`, defaulting to `Hundredth`.  The subtractions here
are exact in `f64` for all inputs used in the theorems below. -/
def tickSizeFromF64 (n : F) : TickSize :=
  if ((n.sub (.finite f64Tenth)).fabs.lt (.finite f64Epsilon)) then .tenth
  else if ((n.sub (.finite f64Hundredth)).fabs.lt (.finite f64Epsilon)) then .hundredth
  else if ((n.sub (.finite f64Thousandth)).fabs.lt (.finite f64Epsilon)) then .thousandth
  else if ((n.sub (.finite f64TenThousandth)).fabs.lt (.finite f64Epsilon)) then .tenThousandth
  else .hundredth

/-- `round_to_decimals` from `utils.rs` (the multiplier `10f64.powi(d)` is
exact in `f64` for the exponents that occur, `1 ≤ d ≤ 4`). -/
def round_to_decimals (value : F) (decimals : ℕ) : F :=
  let multiplier : ℚ := qOfInt (Int.ofNat (10 ^ decimals))
  ((value.mul (.finite multiplier)).roundRust).divQ multiplier

/-- `to_raw_amount` from `utils.rs`. -/
def to_raw_amount (value : F) (decimals : ℕ) : String :=
  let multiplier : ℚ := qOfInt (Int.ofNat (10 ^ decimals))
  Nat.repr ((value.mul (.finite multiplier)).floorCastU128)

/-- The cost-side raw amount computed inside `calculate_order_amounts`
(price and size rounded, cost formed and rounded, then converted with
`SIZE_DECIMALS = 2`). -/
def orderCostAmount (price size : F) (tick_size : TickSize) : String :=
  let tick_decimals := tick_size.decimals
  let price_rounded := round_to_decimals price tick_decimals
  let size_rounded := round_to_decimals size 2
  let cost := price_rounded.mul size_rounded
  let cost_rounded := round_to_decimals cost tick_decimals
  to_raw_amount cost_rounded 2

/-- The share-side raw amount computed inside `calculate_order_amounts`. -/
def orderShareAmount (size : F) : String :=
  to_raw_amount (round_to_decimals size 2) 2

/-- `calculate_order_amounts` from `utils.rs`: Buy pays USDC (maker = cost,
taker = shares); Sell pays shares (maker = shares, taker = cost). -/
def calculate_order_amounts (price size : F) (side : OrderSide) (tick_size : TickSize) :
    String × String :=
  match side with
  | .buy => (orderCostAmount price size tick_size, orderShareAmount size)
  | .sell => (orderShareAmount size, orderCostAmount price size tick_size)

/-- `ApiError` (only the variant reachable from the embedded code). -/
inductive ApiError where
  | validation (msg : String)
deriving DecidableEq, Repr

/-- `ClobError` from `error.rs` (variants reachable from the embedded code). -/
inductive ClobError where
  | api (e : ApiError)
  | crypto (msg : String)
  | alloy (msg : String)
deriving DecidableEq, Repr

/-- `ClobError::validation` helper from `error.rs`. -/
def ClobError.mkValidation (msg : String) : ClobError :=
  .api (.validation msg)

/-- `CreateOrderParams` from `client.rs`. -/
structure CreateOrderParams where
  token_id : String
  price : F
  size : F
  side : OrderSide
  expiration : Option ℕ
deriving DecidableEq, Repr

/-- `CreateOrderParams::validate` from `client.rs` (the formatted numeric
value in the messages is elided). -/
def CreateOrderParams.validate (p : CreateOrderParams) : Except ClobError Unit :=
  if p.price.le (.finite 0) || (F.finite 1).lt p.price then
    .error (ClobError.mkValidation "Price must be between 0.0 and 1.0")
  else if p.size.le (.finite 0) then
    .error (ClobError.mkValidation "Size must be positive")
  else if p.price.isNan || p.size.isNan then
    .error (ClobError.mkValidation "NaN values not allowed")
  else
    .ok ()

/-- `Order` from `types.rs` (addresses as 160-bit naturals). -/
structure Order where
  salt : String
  maker : ℕ
  signer : ℕ
  taker : ℕ
  token_id : String
  maker_amount : String
  taker_amount : String
  expiration : String
  nonce : String
  fee_rate_bps : String
  side : OrderSide
  signature_type : SignatureType
deriving DecidableEq, Repr

/-- `Clob::create_order` from `client.rs`, with the account address, the
generated salt, the current timestamp, the fetched market minimum tick size
and the fetched fee rate passed in explicitly (in the source these come from
the account and from network calls made only after `params.validate()?`
succeeds). -/
def createOrder (accountAddress : ℕ) (salt : String) (now : ℕ)
    (minimumTickSize : F) (feeRateBps : String) (p : CreateOrderParams) :
    Except ClobError Order :=
  match p.validate with
  | .error e => .error e
  | .ok () =>
    let tick_size := tickSizeFromF64 minimumTickSize
    let amounts := calculate_order_amounts p.price p.size p.side tick_size
    .ok {
      salt := salt
      maker := accountAddress
      signer := accountAddress
      taker := 0
      token_id := p.token_id
      maker_amount := amounts.1
      taker_amount := amounts.2
      expiration := Nat.repr (p.expiration.getD 0)
      nonce := Nat.repr now
      fee_rate_bps := feeRateBps
      side := p.side
      signature_type := .eoa }

/-- `Contracts` from `core/chain.rs` (addresses as 160-bit naturals). -/
structure Contracts where
  exchange : ℕ
  neg_risk_exchange : ℕ
  neg_risk_adapter : ℕ
  collateral : ℕ
  conditional_tokens : ℕ
deriving DecidableEq, Repr

/-- `Contracts::POLYGON_MAINNET`. -/
def Contracts.POLYGON_MAINNET : Contracts :=
  { exchange := 0x4bFb41d5B3570DeFd03C39a9A4D8dE6Bd8B8982E
    neg_risk_exchange := 0xC5d563A36AE78145C45a50134d48A1215220f80a
    neg_risk_adapter := 0xd91E80cF2E7be2e162c6513ceD06f1dD0dA35296
    collateral := 0x2791Bca1f2de4661ED88A30C99A7a9449Aa84174
    conditional_tokens := 0x4D97DCd97eC945f40cF65F87097ACe5EA0476045 }

/-- `Contracts::POLYGON_AMOY`. -/
def Contracts.POLYGON_AMOY : Contracts :=
  { exchange := 0xdFE02Eb6733538f8Ea35D585af8DE5958AD99E40
    neg_risk_exchange := 0xd91E80cF2E7be2e162c6513ceD06f1dD0dA35296
    neg_risk_adapter := 0xd0D0E471E88e0A8E7C304F2df3A0Cc7400fe4635
    collateral := 0x9c4e1703476e875070ee25b56a58b008cfb8fa78
    conditional_tokens := 0x69308FB512518e39F9b16112fA8d994F4e2Bf8bB }

/-- `Chain` from `core/chain.rs`. -/
inductive Chain where
  | polygonMainnet
  | polygonAmoy
deriving DecidableEq, Repr

/-- `Chain::chain_id`. -/
def Chain.chain_id : Chain → ℕ
  | .polygonMainnet => 137
  | .polygonAmoy => 80002

/-- `Chain::contracts`. -/
def Chain.contracts : Chain → Contracts
  | .polygonMainnet => Contracts.POLYGON_MAINNET
  | .polygonAmoy => Contracts.POLYGON_AMOY

/-- `Chain::from_chain_id`. -/
def Chain.from_chain_id (chain_id : ℕ) : Option Chain :=
  if chain_id = 137 then some .polygonMainnet
  else if chain_id = 80002 then some .polygonAmoy
  else none

/-- `EIP712Domain` from `core/eip712.rs`. -/
structure EIP712Domain where
  name : String
  version : String
  chainId : ℕ
  verifyingContract : ℕ
deriving DecidableEq, Repr

/-- The EIP-712 domain record built by `sign_order` in `core/eip712.rs`
(`None` when the chain id is unsupported, in which case `sign_order` fails
with a `Crypto` error before building any domain). -/
def signOrderDomain (chain_id : ℕ) : Option EIP712Domain :=
  (Chain.from_chain_id chain_id).map fun chain =>
    { name := "Polymarket CTF Exchange"
      version := "1"
      chainId := chain_id
      verifyingContract := chain.contracts.neg_risk_exchange }

/-- The EIP-712 domain record built by `sign_clob_auth` in `core/eip712.rs`. -/
def clobAuthDomain (chain_id : ℕ) : EIP712Domain :=
  { name := "ClobAuthDomain"
    version := "1"
    chainId := chain_id
    verifyingContract := 0 }

/-! ## SHA-256, HMAC and base64 (the `sha2`, `hmac` and `base64` crates
used by `signer.rs`, embedded as executable byte-level functions). -/

/-- Truncate to 32 bits. -/
def w32 (n : ℕ) : ℕ := n % 2 ^ 32

/-- 32-bit addition. -/
def wadd (a b : ℕ) : ℕ := (a + b) % 2 ^ 32

/-- 32-bit right rotation (arguments assumed `< 2^32`). -/
def rotr (k n : ℕ) : ℕ := ((n >>> k) ||| (n <<< (32 - k))) % 2 ^ 32

/-- Bitwise complement within 32 bits. -/
def wnot (n : ℕ) : ℕ := n ^^^ 0xffffffff

/-- SHA-256 `Ch`. -/
def shaCh (x y z : ℕ) : ℕ := (x &&& y) ^^^ (wnot x &&& z)

/-- SHA-256 `Maj`. -/
def shaMaj (x y z : ℕ) : ℕ := (x &&& y) ^^^ (x &&& z) ^^^ (y &&& z)

/-- SHA-256 `Σ0`. -/
def shaBigS0 (x : ℕ) : ℕ := rotr 2 x ^^^ rotr 13 x ^^^ rotr 22 x

/-- SHA-256 `Σ1`. -/
def shaBigS1 (x : ℕ) : ℕ := rotr 6 x ^^^ rotr 11 x ^^^ rotr 25 x

/-- SHA-256 `σ0`. -/
def shaSmallS0 (x : ℕ) : ℕ := rotr 7 x ^^^ rotr 18 x ^^^ (x >>> 3)

/-- SHA-256 `σ1`. -/
def shaSmallS1 (x : ℕ) : ℕ := rotr 17 x ^^^ rotr 19 x ^^^ (x >>> 10)

/-- SHA-256 round constants. -/
def shaK : List ℕ :=
  [1116352408, 1899447441, 3049323471, 3921009573, 961987163, 1508970993,
   2453635748, 2870763221, 3624381080, 310598401, 607225278, 1426881987,
   1925078388, 2162078206, 2614888103, 3248222580, 3835390401, 4022224774,
   264347078, 604807628, 770255983, 1249150122, 1555081692, 1996064986,
   2554220882, 2821834349, 2952996808, 3210313671, 3336571891, 3584528711,
   113926993, 338241895, 666307205, 773529912, 1294757372, 1396182291,
   1695183700, 1986661051, 2177026350, 2456956037, 2730485921, 2820302411,
   3259730800, 3345764771, 3516065817, 3600352804, 4094571909, 275423344,
   430227734, 506948616, 659060556, 883997877, 958139571, 1322822218,
   1537002063, 1747873779, 1955562222, 2024104815, 2227730452, 2361852424,
   2428436474, 2756734187, 3204031479, 3329325298]

/-- SHA-256 initial hash state. -/
def shaH0 : List ℕ :=
  [1779033703, 3144134277, 1013904242, 2773480762,
   1359893119, 2600822924, 528734635, 1541459225]

/-- Extend the 16-word message schedule by `count` further words. -/
def shaSchedule (ws : Array ℕ) : ℕ → Array ℕ
  | 0 => ws
  | count + 1 =>
    let i := ws.size
    let w := wadd (shaSmallS1 (ws.getD (i - 2) 0))
      (wadd (ws.getD (i - 7) 0) (wadd (shaSmallS0 (ws.getD (i - 15) 0)) (ws.getD (i - 16) 0)))
    shaSchedule (ws.push w) count

/-- One SHA-256 compression round (state is the list `[a,b,c,d,e,f,g,h]`). -/
def shaStep (s : List ℕ) (kw : ℕ × ℕ) : List ℕ :=
  match s with
  | [a, b, c, d, e, f, g, h] =>
    let t1 := wadd h (wadd (shaBigS1 e) (wadd (shaCh e f g) (wadd kw.1 kw.2)))
    let t2 := wadd (shaBigS0 a) (shaMaj a b c)
    [wadd t1 t2, a, b, c, wadd d t1, e, f, g]
  | s => s

/-- Big-endian 4-byte encoding of a 32-bit word. -/
def be4 (n : ℕ) : List ℕ :=
  [(n >>> 24) % 256, (n >>> 16) % 256, (n >>> 8) % 256, n % 256]

/-- Big-endian 8-byte encoding of a 64-bit length. -/
def be8 (n : ℕ) : List ℕ :=
  [(n >>> 56) % 256, (n >>> 48) % 256, (n >>> 40) % 256, (n >>> 32) % 256,
   (n >>> 24) % 256, (n >>> 16) % 256, (n >>> 8) % 256, n % 256]

/-- SHA-256 padding: `0x80`, zeros, then the 64-bit big-endian bit length. -/
def shaPad (msg : List ℕ) : List ℕ :=
  let len := msg.length
  let zeros := (64 + 56 - (len + 1) % 64) % 64
  msg ++ 0x80 :: List.replicate zeros 0 ++ be8 (8 * len)

/-- Split into 64-byte blocks (fuelled structural recursion; the fuel
`l.length` always suffices since every step consumes at least one byte). -/
def chunks64Fuel : ℕ → List ℕ → List (List ℕ)
  | 0, _ => []
  | _, [] => []
  | fuel + 1, l => l.take 64 :: chunks64Fuel fuel (l.drop 64)

/-- Split into 64-byte blocks. -/
def chunks64 (l : List ℕ) : List (List ℕ) := chunks64Fuel l.length l

/-- The 16 big-endian words of a 64-byte block. -/
def blockWords (block : List ℕ) : Array ℕ :=
  ((List.range 16).map fun i =>
    ((block.getD (4 * i) 0) <<< 24) ||| ((block.getD (4 * i + 1) 0) <<< 16) |||
    ((block.getD (4 * i + 2) 0) <<< 8) ||| (block.getD (4 * i + 3) 0)).toArray

/-- Process one block: schedule, 64 rounds, add into the running state. -/
def shaBlock (state : List ℕ) (block : List ℕ) : List ℕ :=
  let ws := shaSchedule (blockWords block) 48
  let final := (shaK.zip ws.toList).foldl shaStep state
  (state.zip final).map fun p => wadd p.1 p.2

/-- SHA-256 of a byte string. -/
def sha256 (msg : List ℕ) : List ℕ :=
  (((chunks64 (shaPad msg)).foldl shaBlock shaH0).map be4).flatten

/-- HMAC-SHA256 (`Hmac::<Sha256>` from the `hmac` crate; block size 64). -/
def hmacSha256 (key msg : List ℕ) : List ℕ :=
  let k0 := if key.length > 64 then sha256 key else key
  let kPad := k0 ++ List.replicate (64 - k0.length) 0
  let ipad := kPad.map fun b => b ^^^ 0x36
  let opad := kPad.map fun b => b ^^^ 0x5c
  sha256 (opad ++ sha256 (ipad ++ msg))

/-- The standard base64 alphabet. -/
def b64StdAlphabet : List Char :=
  "ABCDEFGHIJKLMNOPQRSTUVWXYZabcdefghijklmnopqrstuvwxyz0123456789+/".toList

/-- The URL-safe base64 alphabet. -/
def b64UrlAlphabet : List Char :=
  "ABCDEFGHIJKLMNOPQRSTUVWXYZabcdefghijklmnopqrstuvwxyz0123456789-_".toList

/-- Character for a 6-bit group in the standard alphabet. -/
def b64Char (n : ℕ) : Char := b64StdAlphabet.getD n 'A'

/-- Standard base64 encoding (with `=` padding), as `STANDARD.encode`. -/
def b64encode : List ℕ → List Char
  | [] => []
  | [a] => [b64Char (a >>> 2), b64Char ((a &&& 3) <<< 4), '=', '=']
  | [a, b] => [b64Char (a >>> 2), b64Char (((a &&& 3) <<< 4) ||| (b >>> 4)),
               b64Char ((b &&& 15) <<< 2), '=']
  | a :: b :: c :: rest =>
    b64Char (a >>> 2) :: b64Char (((a &&& 3) <<< 4) ||| (b >>> 4)) ::
    b64Char (((b &&& 15) <<< 2) ||| (c >>> 6)) :: b64Char (c &&& 63) :: b64encode rest

/-- Byte string of a Rust `&str` (`as_bytes`), modelled by code points
(coincides with UTF-8 on the ASCII data handled here). -/
def strBytes (s : String) : List ℕ := s.toList.map Char.toNat

/-- `signature.replace('+', "-")` from `signer.rs` (single-character
pattern, so equal to a character map). -/
def replacePlus (c : Char) : Char := if c = '+' then '-' else c

/-- `signature.replace('/', "_")` from `signer.rs`. -/
def replaceSlash (c : Char) : Char := if c = '/' then '_' else c

/-- `Signer` from `signer.rs`. -/
structure Signer where
  secret : List ℕ
deriving DecidableEq, Repr

/-- `Signer::sign` from `signer.rs`: HMAC-SHA256, standard base64, then
translate `+` to `-` and `/` to `_`.  (`Hmac::new_from_slice` accepts keys
of any length for SHA-256, so the fallible constructor never fails and the
embedding is total.) -/
def Signer.sign (sg : Signer) (message : String) : String :=
  let signature := b64encode (hmacSha256 sg.secret (strBytes message))
  String.mk ((signature.map replacePlus).map replaceSlash)

/-- `Signer::create_message` from `signer.rs`. -/
def Signer.createMessage (timestamp : ℕ) (method path : String) (body : Option String) : String :=
  Nat.repr timestamp ++ method ++ path ++ body.getD ""

/-- Index of a character in the standard base64 alphabet. -/
def b64IndexStd (c : Char) : Option ℕ := b64StdAlphabet.indexOf? c

/-- Index of a character in the URL-safe base64 alphabet. -/
def b64IndexUrl (c : Char) : Option ℕ := b64UrlAlphabet.indexOf? c

/-- Decode unpadded base64 data characters in chunks of four, with the
canonical trailing-bits check the `base64` crate performs by default. -/
def b64decodeChunks (idx : Char → Option ℕ) : List Char → Option (List ℕ)
  | [] => some []
  | [_] => none
  | [c1, c2] => do
    let i1 ← idx c1
    let i2 ← idx c2
    if i2 &&& 15 = 0 then some [((i1 <<< 2) ||| (i2 >>> 4)) % 256] else none
  | [c1, c2, c3] => do
    let i1 ← idx c1
    let i2 ← idx c2
    let i3 ← idx c3
    if i3 &&& 3 = 0 then
      some [((i1 <<< 2) ||| (i2 >>> 4)) % 256, (((i2 &&& 15) <<< 4) ||| (i3 >>> 2)) % 256]
    else none
  | c1 :: c2 :: c3 :: c4 :: rest => do
    let i1 ← idx c1
    let i2 ← idx c2
    let i3 ← idx c3
    let i4 ← idx c4
    let tail ← b64decodeChunks idx rest
    some (((i1 <<< 2) ||| (i2 >>> 4)) % 256 :: (((i2 &&& 15) <<< 4) ||| (i3 >>> 2)) % 256 ::
      (((i3 &&& 3) <<< 6) ||| i4) % 256 :: tail)

/-- Base64 decoding with padding forbidden (`URL_SAFE_NO_PAD`: a `=` is not
in the alphabet, so any padding makes decoding fail). -/
def b64decodeNoPad (idx : Char → Option ℕ) (s : String) : Option (List ℕ) :=
  b64decodeChunks idx s.toList

/-- Base64 decoding with canonical padding required (`URL_SAFE` /
`STANDARD` engines). -/
def b64decodePadded (idx : Char → Option ℕ) (s : String) : Option (List ℕ) :=
  let cs := s.toList
  if cs.length % 4 ≠ 0 then none
  else
    let pads := (cs.reverse.takeWhile (· = '=')).length
    if pads > 2 then none
    else b64decodeChunks idx (cs.take (cs.length - pads))

/-- `Signer::new` from `signer.rs`: try URL-safe-no-pad, URL-safe-with-pad,
then standard base64, and fall back to the raw bytes; always `Ok`. -/
def Signer.new (secret : String) : Except ClobError Signer :=
  let decoded :=
    match b64decodeNoPad b64IndexUrl secret with
    | some b => b
    | none =>
      match b64decodePadded b64IndexUrl secret with
      | some b => b
      | none =>
        match b64decodePadded b64IndexStd secret with
        | some b => b
        | none => strBytes secret
  .ok { secret := decoded }

/-! ## WebSocket message decoding (`ws/market.rs`, `ws/user.rs`,
`ws/client.rs`).  `serde_json` values are the inductive `Json`; the derived
deserializers are translated field by field (unknown fields ignored,
`Option` fields defaulting to `none`, required fields erroring when missing
or of the wrong shape). -/

/-- A JSON value (numbers kept as their source text). -/
inductive Json where
  | str (s : String)
  | num (s : String)
  | bool (b : Bool)
  | null
  | arr (items : List Json)
  | obj (fields : List (String × Json))
deriving Repr

/-- Look up a field of a JSON object. -/
def jLookup (fields : List (String × Json)) (key : String) : Option Json :=
  (fields.find? fun kv => kv.1 == key).map fun kv => kv.2

/-- Decode a required string field. -/
def getStrField (fields : List (String × Json)) (key : String) : Except String String :=
  match jLookup fields key with
  | some (.str s) => .ok s
  | some _ => .error ("invalid type for field " ++ key)
  | none => .error ("missing field " ++ key)

/-- Decode an `Option<String>` field (missing or `null` is `none`). -/
def getOptStrField (fields : List (String × Json)) (key : String) :
    Except String (Option String) :=
  match jLookup fields key with
  | none => .ok none
  | some .null => .ok none
  | some (.str s) => .ok (some s)
  | some _ => .error ("invalid type for field " ++ key)

/-- Decode a required array field. -/
def getArrField (fields : List (String × Json)) (key : String) : Except String (List Json) :=
  match jLookup fields key with
  | some (.arr l) => .ok l
  | some _ => .error ("invalid type for field " ++ key)
  | none => .error ("missing field " ++ key)

/-- Decode every element of a JSON array. -/
def decodeList {α : Type} (d : Json → Except String α) : List Json → Except String (List α)
  | [] => .ok []
  | j :: rest => do
    let a ← d j
    let as ← decodeList d rest
    .ok (a :: as)

/-- `OrderSummary` from `ws/market.rs`. -/
structure OrderSummary where
  price : String
  size : String
deriving DecidableEq, Repr

/-- Derived deserializer of `OrderSummary`. -/
def decodeOrderSummary : Json → Except String OrderSummary
  | .obj f => do
    let price ← getStrField f "price"
    let size ← getStrField f "size"
    .ok { price, size }
  | _ => .error "invalid type: expected OrderSummary object"

/-- `BookMessage` from `ws/market.rs`. -/
structure BookMessage where
  event_type : String
  asset_id : String
  market : String
  timestamp : String
  hash : String
  bids : List OrderSummary
  asks : List OrderSummary
  last_trade_price : Option String
deriving DecidableEq, Repr

/-- Derived deserializer of `BookMessage`. -/
def decodeBookMessage : Json → Except String BookMessage
  | .obj f => do
    let event_type ← getStrField f "event_type"
    let asset_id ← getStrField f "asset_id"
    let market ← getStrField f "market"
    let timestamp ← getStrField f "timestamp"
    let hash ← getStrField f "hash"
    let bidsJ ← getArrField f "bids"
    let bids ← decodeList decodeOrderSummary bidsJ
    let asksJ ← getArrField f "asks"
    let asks ← decodeList decodeOrderSummary asksJ
    let last_trade_price ← getOptStrField f "last_trade_price"
    .ok { event_type, asset_id, market, timestamp, hash, bids, asks, last_trade_price }
  | _ => .error "invalid type: expected BookMessage object"

/-- `PriceChange` from `ws/market.rs`. -/
structure PriceChange where
  asset_id : String
  price : String
  size : String
  side : String
  hash : String
  best_bid : Option String
  best_ask : Option String
deriving DecidableEq, Repr

/-- Derived deserializer of `PriceChange`. -/
def decodePriceChange : Json → Except String PriceChange
  | .obj f => do
    let asset_id ← getStrField f "asset_id"
    let price ← getStrField f "price"
    let size ← getStrField f "size"
    let side ← getStrField f "side"
    let hash ← getStrField f "hash"
    let best_bid ← getOptStrField f "best_bid"
    let best_ask ← getOptStrField f "best_ask"
    .ok { asset_id, price, size, side, hash, best_bid, best_ask }
  | _ => .error "invalid type: expected PriceChange object"

/-- `PriceChangeMessage` from `ws/market.rs`. -/
structure PriceChangeMessage where
  event_type : String
  market : String
  price_changes : List PriceChange
  timestamp : String
deriving DecidableEq, Repr

/-- Derived deserializer of `PriceChangeMessage`. -/
def decodePriceChangeMessage : Json → Except String PriceChangeMessage
  | .obj f => do
    let event_type ← getStrField f "event_type"
    let market ← getStrField f "market"
    let pcJ ← getArrField f "price_changes"
    let price_changes ← decodeList decodePriceChange pcJ
    let timestamp ← getStrField f "timestamp"
    .ok { event_type, market, price_changes, timestamp }
  | _ => .error "invalid type: expected PriceChangeMessage object"

/-- `TickSizeChangeMessage` from `ws/market.rs`. -/
structure TickSizeChangeMessage where
  event_type : String
  asset_id : String
  market : String
  old_tick_size : String
  new_tick_size : String
  side : String
  timestamp : String
deriving DecidableEq, Repr

/-- Derived deserializer of `TickSizeChangeMessage`. -/
def decodeTickSizeChangeMessage : Json → Except String TickSizeChangeMessage
  | .obj f => do
    let event_type ← getStrField f "event_type"
    let asset_id ← getStrField f "asset_id"
    let market ← getStrField f "market"
    let old_tick_size ← getStrField f "old_tick_size"
    let new_tick_size ← getStrField f "new_tick_size"
    let side ← getStrField f "side"
    let timestamp ← getStrField f "timestamp"
    .ok { event_type, asset_id, market, old_tick_size, new_tick_size, side, timestamp }
  | _ => .error "invalid type: expected TickSizeChangeMessage object"

/-- `LastTradePriceMessage` from `ws/market.rs`. -/
structure LastTradePriceMessage where
  event_type : String
  asset_id : String
  market : String
  price : String
  side : String
  size : String
  fee_rate_bps : Option String
  timestamp : String
deriving DecidableEq, Repr

/-- Derived deserializer of `LastTradePriceMessage`. -/
def decodeLastTradePriceMessage : Json → Except String LastTradePriceMessage
  | .obj f => do
    let event_type ← getStrField f "event_type"
    let asset_id ← getStrField f "asset_id"
    let market ← getStrField f "market"
    let price ← getStrField f "price"
    let side ← getStrField f "side"
    let size ← getStrField f "size"
    let fee_rate_bps ← getOptStrField f "fee_rate_bps"
    let timestamp ← getStrField f "timestamp"
    .ok { event_type, asset_id, market, price, side, size, fee_rate_bps, timestamp }
  | _ => .error "invalid type: expected LastTradePriceMessage object"

/-- `MarketMessage` from `ws/market.rs`. -/
inductive MarketMessage where
  | book (m : BookMessage)
  | priceChange (m : PriceChangeMessage)
  | tickSizeChange (m : TickSizeChangeMessage)
  | lastTradePrice (m : LastTradePriceMessage)
deriving DecidableEq, Repr

/-- The `RawMessage { event_type }` probe both channels deserialize first
(fails on non-objects and on a missing or non-string `event_type`). -/
def rawEventType (j : Json) : Except String String :=
  match j with
  | .obj f => getStrField f "event_type"
  | _ => .error "invalid type: expected RawMessage object"

/-- The array branch of `MarketMessage::from_json`: deserialize the whole
frame as `Vec<BookMessage>` and take the first element, erroring on an
empty array. -/
def marketBookArray (items : List Json) : Except String MarketMessage := do
  let books ← decodeList decodeBookMessage items
  match books with
  | b :: _ => .ok (.book b)
  | [] => .error "Empty book array"

/-- The object branch of `MarketMessage::from_json`: dispatch on
`event_type` (the Rust `match` on `&str` is an equality chain). -/
def marketDispatch (j : Json) : Except String MarketMessage := do
  let et ← rawEventType j
  if et = "book" then (decodeBookMessage j).map .book
  else if et = "price_change" then (decodePriceChangeMessage j).map .priceChange
  else if et = "tick_size_change" then (decodeTickSizeChangeMessage j).map .tickSizeChange
  else if et = "last_trade_price" then (decodeLastTradePriceMessage j).map .lastTradePrice
  else .error ("Unknown market event type: " ++ et)

/-- `MarketMessage::from_json` on an already-parsed frame value (the
source's `starts_with('[')` test corresponds here to the top-level value
being an array, which coincides for canonically serialized frames). -/
def MarketMessage.fromJsonV : Json → Except String MarketMessage
  | .arr items => marketBookArray items
  | j => marketDispatch j

/-- `MakerOrder` from `ws/user.rs`. -/
structure MakerOrder where
  order_id : String
  maker_address : String
  matched_amount : String
  fee_rate_bps : Option String
  asset_id : String
  price : String
deriving DecidableEq, Repr

/-- Derived deserializer of `MakerOrder`. -/
def decodeMakerOrder : Json → Except String MakerOrder
  | .obj f => do
    let order_id ← getStrField f "order_id"
    let maker_address ← getStrField f "maker_address"
    let matched_amount ← getStrField f "matched_amount"
    let fee_rate_bps ← getOptStrField f "fee_rate_bps"
    let asset_id ← getStrField f "asset_id"
    let price ← getStrField f "price"
    .ok { order_id, maker_address, matched_amount, fee_rate_bps, asset_id, price }
  | _ => .error "invalid type: expected MakerOrder object"

/-- `TradeStatus` from `ws/user.rs` (serde `UPPERCASE`). -/
inductive TradeStatus where
  | matched
  | mined
  | confirmed
  | retrying
  | failed
deriving DecidableEq, Repr

/-- Derived deserializer of `TradeStatus`. -/
def decodeTradeStatus : Json → Except String TradeStatus
  | .str s =>
    if s = "MATCHED" then .ok .matched
    else if s = "MINED" then .ok .mined
    else if s = "CONFIRMED" then .ok .confirmed
    else if s = "RETRYING" then .ok .retrying
    else if s = "FAILED" then .ok .failed
    else .error "unknown variant for TradeStatus"
  | _ => .error "invalid type: expected TradeStatus string"

/-- `TradeMessage` from `ws/user.rs`. -/
structure TradeMessage where
  event_type : String
  id : String
  asset_id : String
  market : String
  outcome : String
  price : String
  size : String
  side : String
  status : TradeStatus
  taker_order_id : String
  maker_orders : List MakerOrder
  owner : Option String
  transaction_hash : Option String
  timestamp : String
deriving DecidableEq, Repr

/-- Derived deserializer of `TradeMessage`. -/
def decodeTradeMessage : Json → Except String TradeMessage
  | .obj f => do
    let event_type ← getStrField f "event_type"
    let id ← getStrField f "id"
    let asset_id ← getStrField f "asset_id"
    let market ← getStrField f "market"
    let outcome ← getStrField f "outcome"
    let price ← getStrField f "price"
    let size ← getStrField f "size"
    let side ← getStrField f "side"
    let status ← match jLookup f "status" with
      | some v => decodeTradeStatus v
      | none => .error "missing field status"
    let taker_order_id ← getStrField f "taker_order_id"
    let moJ ← getArrField f "maker_orders"
    let maker_orders ← decodeList decodeMakerOrder moJ
    let owner ← getOptStrField f "owner"
    let transaction_hash ← getOptStrField f "transaction_hash"
    let timestamp ← getStrField f "timestamp"
    .ok { event_type, id, asset_id, market, outcome, price, size, side, status,
          taker_order_id, maker_orders, owner, transaction_hash, timestamp }
  | _ => .error "invalid type: expected TradeMessage object"

/-- `OrderEventType` from `ws/user.rs` (serde `UPPERCASE`). -/
inductive OrderEventType where
  | placement
  | update
  | cancellation
deriving DecidableEq, Repr

/-- Derived deserializer of `OrderEventType`. -/
def decodeOrderEventType : Json → Except String OrderEventType
  | .str s =>
    if s = "PLACEMENT" then .ok .placement
    else if s = "UPDATE" then .ok .update
    else if s = "CANCELLATION" then .ok .cancellation
    else .error "unknown variant for OrderEventType"
  | _ => .error "invalid type: expected OrderEventType string"

/-- `OrderMessage` from `ws/user.rs` (`order_type` is serialized as
`"type"`). -/
structure OrderMessage where
  event_type : String
  id : String
  asset_id : String
  market : String
  outcome : String
  price : String
  side : String
  original_size : String
  size_matched : String
  order_type : OrderEventType
  order_owner : Option String
  timestamp : String
deriving DecidableEq, Repr

/-- Derived deserializer of `OrderMessage`. -/
def decodeOrderMessage : Json → Except String OrderMessage
  | .obj f => do
    let event_type ← getStrField f "event_type"
    let id ← getStrField f "id"
    let asset_id ← getStrField f "asset_id"
    let market ← getStrField f "market"
    let outcome ← getStrField f "outcome"
    let price ← getStrField f "price"
    let side ← getStrField f "side"
    let original_size ← getStrField f "original_size"
    let size_matched ← getStrField f "size_matched"
    let order_type ← match jLookup f "type" with
      | some v => decodeOrderEventType v
      | none => .error "missing field type"
    let order_owner ← getOptStrField f "order_owner"
    let timestamp ← getStrField f "timestamp"
    .ok { event_type, id, asset_id, market, outcome, price, side, original_size,
          size_matched, order_type, order_owner, timestamp }
  | _ => .error "invalid type: expected OrderMessage object"

/-- `UserMessage` from `ws/user.rs`. -/
inductive UserMessage where
  | trade (m : TradeMessage)
  | order (m : OrderMessage)
deriving DecidableEq, Repr

/-- `UserMessage::from_json` on an already-parsed frame value. -/
def UserMessage.fromJsonV (j : Json) : Except String UserMessage := do
  let et ← rawEventType j
  if et = "trade" then (decodeTradeMessage j).map .trade
  else if et = "order" then (decodeOrderMessage j).map .order
  else .error ("Unknown user event type: " ++ et)

/-! ## A small JSON text parser (model of `serde_json::from_str`'s parsing
stage), used by the string-level `from_json` and `parse_message`
embeddings.  Recursion is by an explicit fuel (at least the input length,
which bounds the nesting depth). -/

/-- Skip JSON whitespace. -/
def skipWs : List Char → List Char
  | c :: rest => if c = ' ' || c = '\n' || c = '\t' || c = '\r' then skipWs rest else c :: rest
  | [] => []

/-- Value of a hex digit. -/
def hexVal (c : Char) : Option ℕ :=
  if '0' ≤ c ∧ c ≤ '9' then some (c.toNat - '0'.toNat)
  else if 'a' ≤ c ∧ c ≤ 'f' then some (c.toNat - 'a'.toNat + 10)
  else if 'A' ≤ c ∧ c ≤ 'F' then some (c.toNat - 'A'.toNat + 10)
  else none

/-- Parse the body of a JSON string (after the opening quote), returning
the decoded characters and the rest of the input. -/
def parseStrChars : List Char → Option (List Char × List Char)
  | [] => none
  | '"' :: rest => some ([], rest)
  | '\\' :: e :: rest =>
    if e = 'u' then
      match rest with
      | h1 :: h2 :: h3 :: h4 :: rest2 => do
        let v1 ← hexVal h1
        let v2 ← hexVal h2
        let v3 ← hexVal h3
        let v4 ← hexVal h4
        let c := Char.ofNat (((v1 * 16 + v2) * 16 + v3) * 16 + v4)
        (parseStrChars rest2).map fun p => (c :: p.1, p.2)
      | _ => none
    else do
      let c ←
        if e = '"' then some '"'
        else if e = '\\' then some '\\'
        else if e = '/' then some '/'
        else if e = 'n' then some '\n'
        else if e = 't' then some '\t'
        else if e = 'r' then some '\r'
        else if e = 'b' then some (Char.ofNat 8)
        else if e = 'f' then some (Char.ofNat 12)
        else none
      (parseStrChars rest).map fun p => (c :: p.1, p.2)
  | c :: rest => (parseStrChars rest).map fun p => (c :: p.1, p.2)

/-- Characters a JSON number may contain. -/
def isNumChar (c : Char) : Bool :=
  ('0' ≤ c && c ≤ '9') || c = '-' || c = '+' || c = '.' || c = 'e' || c = 'E'

mutual

/-- Parse one JSON value. -/
def parseVal : ℕ → List Char → Option (Json × List Char)
  | 0, _ => none
  | fuel + 1, cs =>
    match skipWs cs with
    | [] => none
    | '{' :: rest =>
      (match skipWs rest with
       | '}' :: r => some (.obj [], r)
       | r => (parseMembers fuel r).map fun p => (.obj p.1, p.2))
    | '[' :: rest =>
      (match skipWs rest with
       | ']' :: r => some (.arr [], r)
       | r => (parseItems fuel r).map fun p => (.arr p.1, p.2))
    | '"' :: rest => (parseStrChars rest).map fun p => (.str (String.mk p.1), p.2)
    | 't' :: 'r' :: 'u' :: 'e' :: r => some (.bool true, r)
    | 'f' :: 'a' :: 'l' :: 's' :: 'e' :: r => some (.bool false, r)
    | 'n' :: 'u' :: 'l' :: 'l' :: r => some (.null, r)
    | c :: rest =>
      if isNumChar c then
        let span := List.span isNumChar (c :: rest)
        some (.num (String.mk span.1), span.2)
      else none

/-- Parse the comma-separated items of a (nonempty) array, up to `]`. -/
def parseItems : ℕ → List Char → Option (List Json × List Char)
  | 0, _ => none
  | fuel + 1, cs => do
    let p ← parseVal fuel cs
    match skipWs p.2 with
    | ',' :: r => (parseItems fuel r).map fun q => (p.1 :: q.1, q.2)
    | ']' :: r => some ([p.1], r)
    | _ => none

/-- Parse the comma-separated members of a (nonempty) object, up to `}`. -/
def parseMembers : ℕ → List Char → Option (List (String × Json) × List Char)
  | 0, _ => none
  | fuel + 1, cs => do
    match skipWs cs with
    | '"' :: rest => do
      let k ← parseStrChars rest
      match skipWs k.2 with
      | ':' :: r => do
        let p ← parseVal fuel r
        match skipWs p.2 with
        | ',' :: r2 => (parseMembers fuel r2).map fun q => ((String.mk k.1, p.1) :: q.1, q.2)
        | '}' :: r2 => some ([(String.mk k.1, p.1)], r2)
        | _ => none
      | _ => none
    | _ => none

end

/-- Parse a complete JSON document. -/
def parseJson (s : String) : Option Json :=
  match parseVal (s.length + 1) s.toList with
  | some (v, rest) => if skipWs rest = [] then some v else none
  | none => none

/-- Rust `str::starts_with('[')` (true when the first character is `[`). -/
def strStartsWithBracket (s : String) : Bool :=
  match s.toList with
  | c :: _ => c = '['
  | [] => false

/-- `MarketMessage::from_json` from `ws/market.rs`, at the string level:
a frame starting with `[` is deserialized as `Vec<BookMessage>` and
unwrapped, everything else goes through the `event_type` dispatch. -/
def MarketMessage.fromJson (s : String) : Except String MarketMessage :=
  if strStartsWithBracket s then
    match parseJson s with
    | some (.arr items) => marketBookArray items
    | _ => .error "invalid JSON"
  else
    match parseJson s with
    | some v => marketDispatch v
    | none => .error "invalid JSON"

/-- `UserMessage::from_json` from `ws/user.rs`, at the string level. -/
def UserMessage.fromJson (s : String) : Except String UserMessage :=
  match parseJson s with
  | some v => UserMessage.fromJsonV v
  | none => .error "invalid JSON"

/-- `ChannelType` from `ws/subscription.rs`. -/
inductive ChannelType where
  | market
  | user
deriving DecidableEq, Repr

/-- `Channel` from `ws/mod.rs`. -/
inductive Channel where
  | market (m : MarketMessage)
  | user (m : UserMessage)
deriving DecidableEq, Repr

/-- `WebSocketError` from `ws/error.rs` (variants reachable from the
embedded code; decode failures arrive via `From<serde_json::Error>` as
`Json`). -/
inductive WebSocketError where
  | json (msg : String)
  | connectionClosed
  | authentication (msg : String)
  | invalidMessage (msg : String)
deriving DecidableEq, Repr

/-- Rust `str::contains` for a literal pattern. -/
def strContainsSub (text pat : String) : Bool :=
  go text.toList
where
  /-- Check every suffix for the pattern as a prefix. -/
  go : List Char → Bool
    | [] => pat.toList.isPrefixOf ([] : List Char)
    | l@(_ :: rest) => pat.toList.isPrefixOf l || go rest

/-- `WebSocket::parse_message` from `ws/client.rs`: skip `PONG`, `{}` and
empty frames, skip frames whose text does not contain `event_type`, then
dispatch to the channel's decoder. -/
def WebSocket.parseMessage (channelType : ChannelType) (text : String) :
    Except WebSocketError (Option Channel) :=
  if text = "PONG" || text = "{}" || text = "" then .ok none
  else if !(strContainsSub text "event_type") then .ok none
  else
    match channelType with
    | .market =>
      match MarketMessage.fromJson text with
      | .ok m => .ok (some (.market m))
      | .error e => .error (.json e)
    | .user =>
      match UserMessage.fromJson text with
      | .ok m => .ok (some (.user m))
      | .error e => .error (.json e)

/-! ## Sanity checks of the embedded cryptography against published test
vectors (FIPS 180-4 / RFC 4231), validating the SHA-256 and HMAC
embeddings. -/

theorem sha256_empty_vector :
    sha256 [] = [0xe3, 0xb0, 0xc4, 0x42, 0x98, 0xfc, 0x1c, 0x14, 0x9a, 0xfb, 0xf4, 0xc8,
      0x99, 0x6f, 0xb9, 0x24, 0x27, 0xae, 0x41, 0xe4, 0x64, 0x9b, 0x93, 0x4c,
      0xa4, 0x95, 0x99, 0x1b, 0x78, 0x52, 0xb8, 0x55] := by decide

theorem hmacSha256_rfc4231_vector :
    hmacSha256 (List.replicate 20 0x0b) (strBytes "Hi There") =
      [0xb0, 0x34, 0x4c, 0x61, 0xd8, 0xdb, 0x38, 0x53, 0x5c, 0xa8, 0xaf, 0xce,
       0xaf, 0x0b, 0xf1, 0x2b, 0x88, 0x1d, 0xc2, 0x00, 0xc9, 0x83, 0x3d, 0xa7,
       0x26, 0xe9, 0x37, 0x6c, 0x2e, 0x32, 0xcf, 0xf7] := by decide

/-! ## Helper lemmas. -/

theorem exceptBind_ok {ε α β : Type} (x : Except ε α) (k : α → Except ε β) (b : β)
    (h : (x >>= k) = .ok b) : ∃ a, x = .ok a ∧ k a = .ok b := by
  cases x with
  | error e => simp [Bind.bind, Except.bind] at h
  | ok a => exact ⟨a, rfl, by simpa [Bind.bind, Except.bind] using h⟩

theorem replacePlus_ne_plus (c : Char) : replacePlus c ≠ '+' := by
  unfold replacePlus
  split_ifs with h <;> simp_all

theorem replaceSlash_ne_slash (c : Char) : replaceSlash c ≠ '/' := by
  unfold replaceSlash
  split_ifs with h <;> simp_all

theorem replaceSlash_preserves_ne_plus (c : Char) (h : c ≠ '+') : replaceSlash c ≠ '+' := by
  unfold replaceSlash
  split_ifs <;> simp_all

theorem urlSafe_no_plus (l : List Char) : '+' ∉ (l.map replacePlus).map replaceSlash := by
  intro hmem
  rcases List.mem_map.mp hmem with ⟨c, hc, heq⟩
  rcases List.mem_map.mp hc with ⟨c0, _, heq0⟩
  exact replaceSlash_preserves_ne_plus c (heq0 ▸ replacePlus_ne_plus c0) heq

theorem urlSafe_no_slash (l : List Char) : '/' ∉ (l.map replacePlus).map replaceSlash := by
  intro hmem
  rcases List.mem_map.mp hmem with ⟨c, _, heq⟩
  exact replaceSlash_ne_slash c heq

/-! ## The claims. -/

/-- C1: `calculate_order_amounts(0.52, 100.0, Buy, Hundredth)` returns
maker `"5200"` and taker `"10000"`, the Sell side swaps them, and in
general Buy assigns (maker = cost, taker = shares) while Sell assigns
(maker = shares, taker = cost). -/
theorem calculate_order_amounts_spec :
    calculate_order_amounts (.finite (Rat.divInt 52 100)) (.finite 100) .buy .hundredth =
      ("5200", "10000")
    ∧ calculate_order_amounts (.finite (Rat.divInt 52 100)) (.finite 100) .sell .hundredth =
      ("10000", "5200")
    ∧ (∀ price size tick_size, calculate_order_amounts price size .buy tick_size =
        (orderCostAmount price size tick_size, orderShareAmount size))
    ∧ (∀ price size tick_size, calculate_order_amounts price size .sell tick_size =
        (orderShareAmount size, orderCostAmount price size tick_size)) :=
  ⟨by decide, by decide, fun _ _ _ => rfl, fun _ _ _ => rfl⟩

/-- C2 counterexample: on Polygon mainnet (chain id 137) the order-signing
domain's verifying contract is the neg-risk exchange address, which is not
the `exchange` contract address of the chain's contract set. -/
theorem signOrderDomain_not_exchange :
    (signOrderDomain 137).map (fun d => d.verifyingContract) =
      some 0xC5d563A36AE78145C45a50134d48A1215220f80a
    ∧ Contracts.POLYGON_MAINNET.exchange = 0x4bFb41d5B3570DeFd03C39a9A4D8dE6Bd8B8982E
    ∧ (signOrderDomain 137).map (fun d => d.verifyingContract) ≠
      some Contracts.POLYGON_MAINNET.exchange := by
  refine ⟨rfl, rfl, ?_⟩
  decide

/-- C2 amended: for every supported chain id, the order-signing EIP-712
domain uses the chain's `neg_risk_exchange` contract address as verifying
contract (not the `exchange` address), while the auth-challenge domain uses
the zero address. -/
theorem signOrderDomain_neg_risk (chain_id : ℕ) (c : Chain)
    (h : Chain.from_chain_id chain_id = some c) :
    signOrderDomain chain_id = some
      { name := "Polymarket CTF Exchange", version := "1", chainId := chain_id,
        verifyingContract := c.contracts.neg_risk_exchange }
    ∧ (clobAuthDomain chain_id).verifyingContract = 0 := by
  constructor
  · rw [signOrderDomain, h, Option.map_some']
  · rfl

/-- C2 witness: instantiated on Polygon mainnet. -/
theorem signOrderDomain_neg_risk_witness :
    signOrderDomain 137 = some
      { name := "Polymarket CTF Exchange", version := "1", chainId := 137,
        verifyingContract := Chain.polygonMainnet.contracts.neg_risk_exchange }
    ∧ (clobAuthDomain 137).verifyingContract = 0 :=
  signOrderDomain_neg_risk 137 .polygonMainnet (by decide)

/-- C4 counterexample: parameters with a valid price and `size = +∞` pass
validation, contradicting the requirement that non-finite sizes be
rejected. -/
theorem validate_accepts_infinite_size :
    CreateOrderParams.validate
      { token_id := "t", price := .finite (Rat.divInt 1 2), size := .inf,
        side := .buy, expiration := none } = .ok () := by decide

/-- C4 amended: validation rejects NaN and non-positive sizes, but a
positive infinite size passes validation together with any price in
`(0, 1]`: finiteness beyond the NaN check is not enforced. -/
theorem validate_infinite_size_passes (token_id : String) (side : OrderSide)
    (expiration : Option ℕ) (q : ℚ) (h1 : 0 < q) (h2 : q ≤ 1) :
    CreateOrderParams.validate
      { token_id, price := .finite q, size := .inf, side, expiration } = .ok () := by
  have hq1 : ¬ (q ≤ 0) := not_le.mpr h1
  have hq2 : ¬ (1 < q) := not_lt.mpr h2
  simp [CreateOrderParams.validate, F.le, F.lt, F.isNan, hq1, hq2]

/-- C4 witness: instantiated at price `1/2`. -/
theorem validate_infinite_size_passes_witness :
    CreateOrderParams.validate
      { token_id := "w", price := .finite (Rat.divInt 1 2), size := .inf,
        side := .sell, expiration := none } = .ok () :=
  validate_infinite_size_passes "w" .sell none (Rat.divInt 1 2) (by decide) (by decide)

/-- C9 counterexample: the streaming client's `parse_message` silently
skips an empty-array market frame (it lacks an `event_type` substring), it
does not surface a decode error. -/
theorem parseMessage_skips_empty_array :
    WebSocket.parseMessage .market "[]" = .ok none := by decide

/-- C9 amended: `MarketMessage::from_json` itself rejects an empty book
array with a hard decode error, but the streaming client's frame
classification never reaches it for the frame `"[]"`: `parse_message`
discards that frame as event-type-less noise. -/
theorem empty_book_array_behaviour :
    MarketMessage.fromJson "[]" = .error "Empty book array"
    ∧ WebSocket.parseMessage .market "[]" = .ok none := by
  exact ⟨by decide, by decide⟩

/-- C10 counterexample: the double `0.1 + 2^-40` (exactly representable,
exactly `3602879701929165/2^55`) is none of the four recognized tick sizes,
yet `TickSize::from` maps it to `Tenth`, not to the default `Hundredth`. -/
theorem tickSizeFromF64_near_miss :
    (Rat.divInt 3602879701929165 36028797018963968 ≠ f64Tenth
      ∧ Rat.divInt 3602879701929165 36028797018963968 ≠ f64Hundredth
      ∧ Rat.divInt 3602879701929165 36028797018963968 ≠ f64Thousandth
      ∧ Rat.divInt 3602879701929165 36028797018963968 ≠ f64TenThousandth
      ∧ Rat.divInt 3602879701929165 36028797018963968 ≠ Rat.divInt 1 10
      ∧ Rat.divInt 3602879701929165 36028797018963968 ≠ Rat.divInt 1 100
      ∧ Rat.divInt 3602879701929165 36028797018963968 ≠ Rat.divInt 1 1000
      ∧ Rat.divInt 3602879701929165 36028797018963968 ≠ Rat.divInt 1 10000)
    ∧ tickSizeFromF64 (.finite (Rat.divInt 3602879701929165 36028797018963968)) = .tenth
    ∧ tickSizeFromF64 (.finite (Rat.divInt 3602879701929165 36028797018963968)) ≠
      .hundredth := by decide

/-- A successful proximity test forces the input to be finite (the IEEE
specials compare false against `EPSILON`). -/
theorem near_finite (n : F) (a : ℚ)
    (h : ((n.sub (.finite a)).fabs.lt (.finite f64Epsilon)) = true) :
    ∃ q, n = .finite q := by
  cases n with
  | finite q => exact ⟨q, rfl⟩
  | nan => simp [F.sub, F.fabs, F.lt] at h
  | inf => simp [F.sub, F.fabs, F.lt] at h
  | neginf => simp [F.sub, F.fabs, F.lt] at h

/-- The Boolean proximity test of `impl From<f64> for TickSize`, read off
as a rational inequality. -/
theorem near_iff (q a : ℚ) :
    (((F.finite q).sub (.finite a)).fabs.lt (.finite f64Epsilon)) = true ↔
      |q - a| < f64Epsilon := by
  simp [F.sub, F.fabs, F.lt, qSub_eq, qAbs_eq]

/-- Two anchors more than `2·EPSILON` apart have disjoint `EPSILON`
neighbourhoods. -/
theorem far_of_near (q a b : ℚ) (hab : f64Epsilon + f64Epsilon < |a - b|)
    (hnear : |q - b| < f64Epsilon) : ¬ (|q - a| < f64Epsilon) := by
  intro h
  have htri : |a - b| ≤ |q - a| + |q - b| := by
    have hsplit : a - b = -(q - a) + (q - b) := by ring
    calc |a - b| = |(-(q - a)) + (q - b)| := by rw [hsplit]
    _ ≤ |(-(q - a))| + |q - b| := abs_add _ _
    _ = |q - a| + |q - b| := by rw [abs_neg]
  linarith

/-- The `EPSILON` proximity test against an anchor fails for any value
within `EPSILON` of a different anchor more than `2·EPSILON` away. -/
theorem near_excludes (q a b : ℚ) (hab : f64Epsilon + f64Epsilon < |a - b|)
    (hnear : |q - b| < f64Epsilon) :
    (((F.finite q).sub (.finite a)).fabs.lt (.finite f64Epsilon)) = false := by
  rw [Bool.eq_false_iff]
  intro hb
  exact far_of_near q a b hab hnear ((near_iff q a).mp hb)

/-- C10 amended: the conversions never fail; a string other than the four
recognized spellings converts to the default `Hundredth`; a float within
`EPSILON = 1e-10` of a recognized tick size converts to that size (the
four neighbourhoods are pairwise disjoint); and a float not within
`EPSILON` of any recognized size converts to the default `Hundredth`. -/
theorem tickSize_conversion_total :
    (∀ s : String, s ≠ "0.1" → s ≠ "0.01" → s ≠ "0.001" → s ≠ "0.0001" →
      tickSizeFromStr s = .hundredth)
    ∧ (∀ n : F, ((n.sub (.finite f64Tenth)).fabs.lt (.finite f64Epsilon)) = true →
        tickSizeFromF64 n = .tenth)
    ∧ (∀ n : F, ((n.sub (.finite f64Hundredth)).fabs.lt (.finite f64Epsilon)) = true →
        tickSizeFromF64 n = .hundredth)
    ∧ (∀ n : F, ((n.sub (.finite f64Thousandth)).fabs.lt (.finite f64Epsilon)) = true →
        tickSizeFromF64 n = .thousandth)
    ∧ (∀ n : F, ((n.sub (.finite f64TenThousandth)).fabs.lt (.finite f64Epsilon)) = true →
        tickSizeFromF64 n = .tenThousandth)
    ∧ (∀ n : F, ((n.sub (.finite f64Tenth)).fabs.lt (.finite f64Epsilon)) = false →
        ((n.sub (.finite f64Hundredth)).fabs.lt (.finite f64Epsilon)) = false →
        ((n.sub (.finite f64Thousandth)).fabs.lt (.finite f64Epsilon)) = false →
        ((n.sub (.finite f64TenThousandth)).fabs.lt (.finite f64Epsilon)) = false →
        tickSizeFromF64 n = .hundredth) := by
  refine ⟨?_, ?_, ?_, ?_, ?_, ?_⟩
  · intro s h1 h2 h3 h4
    simp [tickSizeFromStr, h1, h2, h3, h4]
  · intro n h
    simp [tickSizeFromF64, h]
  · intro n h
    obtain ⟨q, rfl⟩ := near_finite n f64Hundredth h
    have hq := (near_iff q f64Hundredth).mp h
    have bT := near_excludes q f64Tenth f64Hundredth
      (by rw [← qAdd_eq, ← qSub_eq, ← qAbs_eq]; decide) hq
    simp [tickSizeFromF64, bT, h]
  · intro n h
    obtain ⟨q, rfl⟩ := near_finite n f64Thousandth h
    have hq := (near_iff q f64Thousandth).mp h
    have bT := near_excludes q f64Tenth f64Thousandth
      (by rw [← qAdd_eq, ← qSub_eq, ← qAbs_eq]; decide) hq
    have bH := near_excludes q f64Hundredth f64Thousandth
      (by rw [← qAdd_eq, ← qSub_eq, ← qAbs_eq]; decide) hq
    simp [tickSizeFromF64, bT, bH, h]
  · intro n h
    obtain ⟨q, rfl⟩ := near_finite n f64TenThousandth h
    have hq := (near_iff q f64TenThousandth).mp h
    have bT := near_excludes q f64Tenth f64TenThousandth
      (by rw [← qAdd_eq, ← qSub_eq, ← qAbs_eq]; decide) hq
    have bH := near_excludes q f64Hundredth f64TenThousandth
      (by rw [← qAdd_eq, ← qSub_eq, ← qAbs_eq]; decide) hq
    have bTh := near_excludes q f64Thousandth f64TenThousandth
      (by rw [← qAdd_eq, ← qSub_eq, ← qAbs_eq]; decide) hq
    simp [tickSizeFromF64, bT, bH, bTh, h]
  · intro n h1 h2 h3 h4
    simp [tickSizeFromF64, h1, h2, h3, h4]

/-- C10 witness: the string `"0.5"` defaults to `Hundredth`; the near-miss
double converts to `Tenth`; each exact anchor converts to its own size;
the double `1/2` defaults to `Hundredth`. -/
theorem tickSize_conversion_total_witness :
    tickSizeFromStr "0.5" = .hundredth
    ∧ tickSizeFromF64 (.finite (Rat.divInt 3602879701929165 36028797018963968)) = .tenth
    ∧ tickSizeFromF64 (.finite f64Hundredth) = .hundredth
    ∧ tickSizeFromF64 (.finite f64Thousandth) = .thousandth
    ∧ tickSizeFromF64 (.finite f64TenThousandth) = .tenThousandth
    ∧ tickSizeFromF64 (.finite (Rat.divInt 1 2)) = .hundredth :=
  ⟨tickSize_conversion_total.1 "0.5" (by decide) (by decide) (by decide) (by decide),
   tickSize_conversion_total.2.1 _ (by decide),
   tickSize_conversion_total.2.2.1 _ (by decide),
   tickSize_conversion_total.2.2.2.1 _ (by decide),
   tickSize_conversion_total.2.2.2.2.1 _ (by decide),
   tickSize_conversion_total.2.2.2.2.2 _ (by decide) (by decide) (by decide) (by decide)⟩

/-- C3: any parameters with price ≤ 0, price > 1, size ≤ 0 or a NaN price
or size fail validation with a `Validation` error, and `create_order`
returns that same error whatever data the later market/fee fetches would
have produced: validation precedes any amount calculation or signing. -/
theorem createOrder_validates_first (p : CreateOrderParams) (addr : ℕ) (salt : String)
    (now : ℕ) (mts : F) (fee : String)
    (h : p.price.le (.finite 0) = true ∨ (F.finite 1).lt p.price = true ∨
      p.size.le (.finite 0) = true ∨ p.price.isNan = true ∨ p.size.isNan = true) :
    ∃ msg, p.validate = .error (ClobError.mkValidation msg)
      ∧ createOrder addr salt now mts fee p = .error (ClobError.mkValidation msg) := by
  by_cases h1 : (p.price.le (.finite 0) || (F.finite 1).lt p.price) = true
  · exact ⟨"Price must be between 0.0 and 1.0",
      by simp [CreateOrderParams.validate, h1],
      by simp [createOrder, CreateOrderParams.validate, h1]⟩
  · by_cases h2 : p.size.le (.finite 0) = true
    · exact ⟨"Size must be positive",
        by simp [CreateOrderParams.validate, h1, h2],
        by simp [createOrder, CreateOrderParams.validate, h1, h2]⟩
    · by_cases h3 : (p.price.isNan || p.size.isNan) = true
      · exact ⟨"NaN values not allowed",
          by simp [CreateOrderParams.validate, h1, h2, h3],
          by simp [createOrder, CreateOrderParams.validate, h1, h2, h3]⟩
      · exfalso
        simp only [Bool.or_eq_true, not_or, Bool.not_eq_true] at h1 h3
        rcases h with h | h | h | h | h <;> simp_all

/-- C3 witness: a price of 2.0 is rejected by `validate` and by
`create_order`, independently of the fetched tick size and fee rate. -/
theorem createOrder_validates_first_witness :
    ∃ msg,
      CreateOrderParams.validate
        { token_id := "w", price := .finite 2, size := .finite 1,
          side := .buy, expiration := none } = .error (ClobError.mkValidation msg)
      ∧ createOrder 0 "salt" 0 (.finite f64Hundredth) "0"
        { token_id := "w", price := .finite 2, size := .finite 1,
          side := .buy, expiration := none } = .error (ClobError.mkValidation msg) :=
  createOrder_validates_first _ 0 "salt" 0 (.finite f64Hundredth) "0"
    (Or.inr (Or.inl (by decide)))

/-- C7: the L2 HMAC signature of the message
`{timestamp}{METHOD}{path}{body-or-empty}` (concatenated with no
separators) is the standard base64 encoding of the HMAC-SHA256 digest with
`+` translated to `-` and `/` translated to `_`; consequently the output
never contains `+` or `/`. -/
theorem sign_urlsafe_format (sg : Signer) (timestamp : ℕ) (method path : String)
    (body : Option String) :
    Signer.sign sg (Signer.createMessage timestamp method path body) =
      String.mk (((b64encode (hmacSha256 sg.secret
        (strBytes (Nat.repr timestamp ++ method ++ path ++ body.getD "")))).map
          replacePlus).map replaceSlash)
    ∧ '+' ∉ (Signer.sign sg (Signer.createMessage timestamp method path body)).toList
    ∧ '/' ∉ (Signer.sign sg (Signer.createMessage timestamp method path body)).toList :=
  ⟨rfl, urlSafe_no_plus _, urlSafe_no_slash _⟩

/-- C8: `Signer::new` tries URL-safe-no-pad, then URL-safe-with-pad, then
standard base64, takes the first decoding that succeeds, falls back to the
raw bytes when all fail, and always constructs a signer. -/
theorem signer_new_order (s : String) :
    (∃ sg, Signer.new s = .ok sg)
    ∧ (∀ b, b64decodeNoPad b64IndexUrl s = some b → Signer.new s = .ok ⟨b⟩)
    ∧ (b64decodeNoPad b64IndexUrl s = none →
        ∀ b, b64decodePadded b64IndexUrl s = some b → Signer.new s = .ok ⟨b⟩)
    ∧ (b64decodeNoPad b64IndexUrl s = none → b64decodePadded b64IndexUrl s = none →
        ∀ b, b64decodePadded b64IndexStd s = some b → Signer.new s = .ok ⟨b⟩)
    ∧ (b64decodeNoPad b64IndexUrl s = none → b64decodePadded b64IndexUrl s = none →
        b64decodePadded b64IndexStd s = none → Signer.new s = .ok ⟨strBytes s⟩) := by
  refine ⟨⟨_, rfl⟩, ?_, ?_, ?_, ?_⟩
  · intro b hb
    simp [Signer.new, hb]
  · intro h1 b hb
    simp [Signer.new, h1, hb]
  · intro h1 h2 b hb
    simp [Signer.new, h1, h2, hb]
  · intro h1 h2 h3
    simp [Signer.new, h1, h2, h3]

/-- C8 witness: `"!!"` decodes under none of the three base64 engines and
falls back to its raw bytes, and construction succeeds on a well-formed
secret as well. -/
theorem signer_new_order_witness :
    Signer.new "!!" = .ok ⟨strBytes "!!"⟩ ∧ (∃ sg, Signer.new "c2VjcmV0" = .ok sg) :=
  ⟨(signer_new_order "!!").2.2.2.2 (by decide) (by decide) (by decide),
   (signer_new_order "c2VjcmV0").1⟩

/-! Branch-exercising checks for the secret decoding chain: a plain
URL-safe-no-pad secret, a padded secret (first engine fails on `=`), and a
standard-alphabet secret (URL-safe engines fail on `+`). -/

theorem signer_new_branch_nopad :
    Signer.new "c2VjcmV0" = .ok ⟨strBytes "secret"⟩ := by decide

theorem signer_new_branch_padded :
    b64decodeNoPad b64IndexUrl "c2E=" = none
    ∧ Signer.new "c2E=" = .ok ⟨[0x73, 0x61]⟩ := by decide

theorem signer_new_branch_standard :
    b64decodeNoPad b64IndexUrl "+g==" = none
    ∧ b64decodePadded b64IndexUrl "+g==" = none
    ∧ Signer.new "+g==" = .ok ⟨[0xfa]⟩ := by decide

/-- C5 counterexample: an array-wrapped market frame whose `event_type` is
the unrecognized string `"bogus"` decodes successfully as a Book snapshot
(the array branch ignores `event_type`), instead of yielding a decode
error. -/
theorem market_array_ignores_event_type :
    MarketMessage.fromJsonV (.arr [.obj
      [("event_type", .str "bogus"), ("asset_id", .str "a"), ("market", .str "m"),
       ("timestamp", .str "1"), ("hash", .str "h"), ("bids", .arr []),
       ("asks", .arr [])]]) =
      .ok (.book { event_type := "bogus"
                   asset_id := "a"
                   market := "m"
                   timestamp := "1"
                   hash := "h"
                   bids := []
                   asks := []
                   last_trade_price := none }) := by decide

/-- C5 amended: for every non-array (object) frame, an `event_type` value
that is not one of the market channel's recognized event types makes market
decoding return an error, and one that is not one of the user channel's
recognized event types makes user decoding return an error; only the
market channel's array branch bypasses the `event_type` dispatch. -/
theorem unknown_event_type_errors (f : List (String × Json)) (v : Json)
    (hv : jLookup f "event_type" = some v) :
    (v ≠ .str "book" → v ≠ .str "price_change" → v ≠ .str "tick_size_change" →
      v ≠ .str "last_trade_price" → ∃ e, MarketMessage.fromJsonV (.obj f) = .error e)
    ∧ (v ≠ .str "trade" → v ≠ .str "order" →
      ∃ e, UserMessage.fromJsonV (.obj f) = .error e) := by
  constructor
  · intro h1 h2 h3 h4
    cases v with
    | str s =>
      have hs1 : s ≠ "book" := fun hh => h1 (by rw [hh])
      have hs2 : s ≠ "price_change" := fun hh => h2 (by rw [hh])
      have hs3 : s ≠ "tick_size_change" := fun hh => h3 (by rw [hh])
      have hs4 : s ≠ "last_trade_price" := fun hh => h4 (by rw [hh])
      exact ⟨"Unknown market event type: " ++ s,
        by simp [MarketMessage.fromJsonV, marketDispatch, rawEventType, getStrField,
          hv, hs1, hs2, hs3, hs4, Bind.bind, Except.bind]⟩
    | num s =>
      exact ⟨"invalid type for field event_type",
        by simp [MarketMessage.fromJsonV, marketDispatch, rawEventType, getStrField,
          hv, Bind.bind, Except.bind]⟩
    | bool b =>
      exact ⟨"invalid type for field event_type",
        by simp [MarketMessage.fromJsonV, marketDispatch, rawEventType, getStrField,
          hv, Bind.bind, Except.bind]⟩
    | null =>
      exact ⟨"invalid type for field event_type",
        by simp [MarketMessage.fromJsonV, marketDispatch, rawEventType, getStrField,
          hv, Bind.bind, Except.bind]⟩
    | arr items =>
      exact ⟨"invalid type for field event_type",
        by simp [MarketMessage.fromJsonV, marketDispatch, rawEventType, getStrField,
          hv, Bind.bind, Except.bind]⟩
    | obj fields =>
      exact ⟨"invalid type for field event_type",
        by simp [MarketMessage.fromJsonV, marketDispatch, rawEventType, getStrField,
          hv, Bind.bind, Except.bind]⟩
  · intro h5 h6
    cases v with
    | str s =>
      have hs5 : s ≠ "trade" := fun hh => h5 (by rw [hh])
      have hs6 : s ≠ "order" := fun hh => h6 (by rw [hh])
      exact ⟨"Unknown user event type: " ++ s,
        by simp [UserMessage.fromJsonV, rawEventType, getStrField,
          hv, hs5, hs6, Bind.bind, Except.bind]⟩
    | num s =>
      exact ⟨"invalid type for field event_type",
        by simp [UserMessage.fromJsonV, rawEventType, getStrField,
          hv, Bind.bind, Except.bind]⟩
    | bool b =>
      exact ⟨"invalid type for field event_type",
        by simp [UserMessage.fromJsonV, rawEventType, getStrField,
          hv, Bind.bind, Except.bind]⟩
    | null =>
      exact ⟨"invalid type for field event_type",
        by simp [UserMessage.fromJsonV, rawEventType, getStrField,
          hv, Bind.bind, Except.bind]⟩
    | arr items =>
      exact ⟨"invalid type for field event_type",
        by simp [UserMessage.fromJsonV, rawEventType, getStrField,
          hv, Bind.bind, Except.bind]⟩
    | obj fields =>
      exact ⟨"invalid type for field event_type",
        by simp [UserMessage.fromJsonV, rawEventType, getStrField,
          hv, Bind.bind, Except.bind]⟩

/-- C5 witness: a market frame with the user-channel event type `"trade"`
errors on the market channel, and a user frame with the market-channel
event type `"book"` errors on the user channel. -/
theorem unknown_event_type_errors_witness :
    (∃ e, MarketMessage.fromJsonV (.obj [("event_type", .str "trade")]) = .error e)
    ∧ (∃ e, UserMessage.fromJsonV (.obj [("event_type", .str "book")]) = .error e) :=
  ⟨(unknown_event_type_errors [("event_type", .str "trade")] (.str "trade") rfl).1
      (by simp) (by simp) (by simp) (by simp),
   (unknown_event_type_errors [("event_type", .str "book")] (.str "book") rfl).2
      (by simp) (by simp)⟩

/-- A successful `BookMessage` decode implies the frame was an object
whose `event_type` field decoded to the message's `event_type`. -/
theorem decodeBookMessage_obj (j : Json) (m : BookMessage)
    (hd : decodeBookMessage j = .ok m) :
    ∃ f, j = .obj f ∧ getStrField f "event_type" = .ok m.event_type := by
  cases j with
  | obj f =>
    refine ⟨f, rfl, ?_⟩
    simp only [decodeBookMessage] at hd
    obtain ⟨et, h1, hd⟩ := exceptBind_ok _ _ _ hd
    obtain ⟨x1, _, hd⟩ := exceptBind_ok _ _ _ hd
    obtain ⟨x2, _, hd⟩ := exceptBind_ok _ _ _ hd
    obtain ⟨x3, _, hd⟩ := exceptBind_ok _ _ _ hd
    obtain ⟨x4, _, hd⟩ := exceptBind_ok _ _ _ hd
    obtain ⟨x5, _, hd⟩ := exceptBind_ok _ _ _ hd
    obtain ⟨x6, _, hd⟩ := exceptBind_ok _ _ _ hd
    obtain ⟨x7, _, hd⟩ := exceptBind_ok _ _ _ hd
    obtain ⟨x8, _, hd⟩ := exceptBind_ok _ _ _ hd
    obtain ⟨x9, _, hd⟩ := exceptBind_ok _ _ _ hd
    cases hd
    exact h1
  | str s => simp [decodeBookMessage] at hd
  | num s => simp [decodeBookMessage] at hd
  | bool b => simp [decodeBookMessage] at hd
  | null => simp [decodeBookMessage] at hd
  | arr items => simp [decodeBookMessage] at hd

/-- C6: a valid Book message object `b` (one that decodes as a
`BookMessage` with event type `"book"`) decodes to the same message
whether it arrives wrapped in a single-element array or as a bare
object. -/
theorem book_array_unwrap_equiv (j : Json) (m : BookMessage)
    (hd : decodeBookMessage j = .ok m) (he : m.event_type = "book") :
    MarketMessage.fromJsonV (.arr [j]) = .ok (.book m)
    ∧ MarketMessage.fromJsonV j = .ok (.book m) := by
  obtain ⟨f, rfl, het⟩ := decodeBookMessage_obj j m hd
  rw [he] at het
  constructor
  · show marketBookArray [Json.obj f] = .ok (.book m)
    simp [marketBookArray, decodeList, hd, Bind.bind, Except.bind]
  · show marketDispatch (.obj f) = .ok (.book m)
    simp [marketDispatch, rawEventType, het, hd, Bind.bind, Except.bind, Except.map]

/-- C6 witness: a concrete Book object decodes identically bare and
array-wrapped. -/
theorem book_array_unwrap_equiv_witness :
    MarketMessage.fromJsonV (.arr [.obj
      [("event_type", .str "book"), ("asset_id", .str "a"), ("market", .str "m"),
       ("timestamp", .str "1"), ("hash", .str "h"), ("bids", .arr []),
       ("asks", .arr [])]]) =
      .ok (.book { event_type := "book"
                   asset_id := "a"
                   market := "m"
                   timestamp := "1"
                   hash := "h"
                   bids := []
                   asks := []
                   last_trade_price := none })
    ∧ MarketMessage.fromJsonV (.obj
      [("event_type", .str "book"), ("asset_id", .str "a"), ("market", .str "m"),
       ("timestamp", .str "1"), ("hash", .str "h"), ("bids", .arr []),
       ("asks", .arr [])]) =
      .ok (.book { event_type := "book"
                   asset_id := "a"
                   market := "m"
                   timestamp := "1"
                   hash := "h"
                   bids := []
                   asks := []
                   last_trade_price := none }) :=
  book_array_unwrap_equiv _ _ (by rfl) rfl

end Polyte


